import Mathlib

/-!
Shallow embedding of the core signing coordinator of the grpc-demo-tonic
repository (`src/protocol.rs`): the `TradeModel` orchestrator, its two
`KeyCtx` key-aggregation contexts, its seven `SigCtx` signing contexts, and
the in-memory trade store.

Modelling conventions:
* The secp256k1 group is cyclic of prime order `q`; we represent a curve
  point by its discrete logarithm, so `Point := ZMod q` and `base_point_mul`
  is the isomorphism `Scalar → Point`.  Scalars (`secp::Scalar`,
  `secp::MaybeScalar`, partial signatures) are `ZMod q`; scalar subtraction
  (used for the swap-tx adaptor) is subtraction in `ZMod q`.
* The hash-based operations of the external `musig2` crate (key aggregation
  with its per-key coefficients, nonce derivation from a seed, partial
  signing, partial-signature aggregation with its internal verification)
  are kept abstract: every operation of the embedding is parameterised by a
  `Musig` bundle of those functions.  What the claims need from them is
  only that they are deterministic functions and which of them can fail.
* Rust methods taking `&mut self` and returning `Result<T>` become Lean
  functions returning the new state paired with an `Except` result, so that
  the state after a failing call is still observable.
* Rust `Vec<u8>` message bytes are modelled as `String` (the source builds
  them from byte-string literals); `f64` fee rates are modelled as `ℚ`
  (they are never computed with in the embedded code).
-/

namespace GrpcDemo

/-- Order of the secp256k1 group (the modulus of `secp::Scalar`). -/
def q : ℕ := 115792089237316195423570985008687907852837564279074904382605163141518161494337

/-- A secp256k1 scalar (`secp::Scalar` / `secp::MaybeScalar`). -/
abbrev Scalar := ZMod q

/-- A secp256k1 curve point, represented by its discrete logarithm. -/
abbrev Point := Scalar

/-- Scalar base-point multiplication; in the discrete-log representation it
is the identity embedding of scalars into points. -/
def base_point_mul (s : Scalar) : Point := s

/-- A MuSig2 partial signature (`musig2::PartialSignature = MaybeScalar`). -/
abbrev PartialSignature := Scalar

/-- `pub type Adaptor = MaybeScalar;` from the source. -/
abbrev Adaptor := Scalar

/-- A MuSig2 secret nonce: a pair of secret scalars. -/
abbrev SecNonce := Scalar × Scalar

/-- A MuSig2 public nonce: a pair of curve points. -/
abbrev PubNonce := Point × Point

/-- A MuSig2 aggregated nonce: a pair of curve points. -/
abbrev AggNonce := Point × Point

/-- A final (possibly adaptor) signature: nonce point and response scalar. -/
abbrev LiftedSignature := Point × Scalar

/-- A `musig2::KeyAggContext`, modelled as the ordered pair of key shares it
was built from; the aggregated public key is derived from it by the
abstract `Musig.aggregated_pubkey` function. -/
abbrev KeyAggContext := Point × Point

/-- The hash-based operations of the external `musig2` crate, kept abstract.
`none` results model the corresponding Rust error returns
(`KeyAggError`, `SigningError`, `VerifyError`). -/
structure Musig where
  keyAggNew : Point → Point → Option KeyAggContext
  aggregated_pubkey : KeyAggContext → Point
  secNonceBuild : List ℕ → Point → SecNonce
  signPartialFn : KeyAggContext → Scalar → SecNonce → AggNonce → String → Option PartialSignature
  aggregateSigsFn : KeyAggContext → AggNonce → PartialSignature → PartialSignature → String →
    Option LiftedSignature

/-- The public nonce of a secret nonce: base-point multiples of its two
secret scalars (`SecNonce::public_nonce`). -/
def SecNonce.public_nonce (sn : SecNonce) : PubNonce :=
  (base_point_mul sn.1, base_point_mul sn.2)

/-- Pointwise sum of the two public nonces (`AggNonce::sum`). -/
def AggNonce.sum (shares : PubNonce × PubNonce) : AggNonce :=
  (shares.1.1 + shares.2.1, shares.1.2 + shares.2.2)

/-- `ProtocolErrorKind` from the source; the payloads of the three wrapped
`musig2` error variants are dropped. -/
inductive ProtocolErrorKind where
  | MissingKeyShare
  | MissingNonceShare
  | MissingPartialSig
  | MissingAggPubKey
  | MissingAggNonce
  | NonceReuse
  | KeyAgg
  | Signing
  | Verify
deriving DecidableEq, Repr

/-- `type Result<T> = std::result::Result<T, ProtocolErrorKind>;` -/
abbrev Result (T : Type) := Except ProtocolErrorKind T

/-- `Role` from the source, with its `Default` of `SellerAsMaker`. -/
inductive Role where
  | SellerAsMaker
  | SellerAsTaker
  | BuyerAsMaker
  | BuyerAsTaker
deriving DecidableEq, BEq, Repr

/-- `KeyPair` from the source. -/
structure KeyPair where
  pub_key : Point
  prv_key : Scalar
deriving DecidableEq, Repr

/-- `KeyPair::new()`: the fixed placeholder pair with private key one. -/
def KeyPair.new : KeyPair :=
  { pub_key := base_point_mul 1, prv_key := 1 }

/-- `NoncePair` from the source; `sec_nonce` is consumed on first use. -/
structure NoncePair where
  pub_nonce : PubNonce
  sec_nonce : Option SecNonce
deriving DecidableEq, Repr

/-- `NoncePair::new(nonce_seed, aggregated_pub_key)`. -/
def NoncePair.new (μ : Musig) (nonce_seed : List ℕ) (aggregated_pub_key : Point) : NoncePair :=
  let sn := μ.secNonceBuild nonce_seed aggregated_pub_key
  { pub_nonce := SecNonce.public_nonce sn, sec_nonce := some sn }

/-- `KeyCtx` from the source, with its `Default` field values. -/
structure KeyCtx where
  am_buyer : Bool := false
  my_key_share : Option KeyPair := none
  peers_key_share : Option Point := none
  aggregated_pub_key : Option Point := none
  key_agg_ctx : Option KeyAggContext := none
deriving DecidableEq, Repr

/-- `SigCtx` from the source, with its `Default` field values. -/
structure SigCtx where
  am_buyer : Bool := false
  my_nonce_share : Option NoncePair := none
  peers_nonce_share : Option PubNonce := none
  aggregated_nonce : Option AggNonce := none
  message : Option String := none
  my_partial_sig : Option PartialSignature := none
  peers_partial_sig : Option PartialSignature := none
  aggregated_sig : Option LiftedSignature := none
deriving DecidableEq, Repr

/-- `KeyCtx::init_my_key_share`. -/
def KeyCtx.init_my_key_share (k : KeyCtx) : KeyCtx :=
  { k with my_key_share := some KeyPair.new }

/-- `KeyCtx::get_key_shares`: ordered `[own, peer]` for the buyer and
`[peer, own]` for the seller. -/
def KeyCtx.get_key_shares (k : KeyCtx) : Option (Point × Point) :=
  if k.am_buyer then
    match k.my_key_share, k.peers_key_share with
    | some mine, some peers => some (mine.pub_key, peers)
    | _, _ => none
  else
    match k.peers_key_share, k.my_key_share with
    | some peers, some mine => some (peers, mine.pub_key)
    | _, _ => none

/-- `KeyCtx::aggregate_key_shares`. -/
def KeyCtx.aggregate_key_shares (μ : Musig) (k : KeyCtx) : KeyCtx × Result Unit :=
  match k.get_key_shares with
  | none => (k, .error .MissingKeyShare)
  | some shares =>
    match μ.keyAggNew shares.1 shares.2 with
    | none => (k, .error .KeyAgg)
    | some agg_ctx =>
      ({ k with aggregated_pub_key := some (μ.aggregated_pubkey agg_ctx),
                key_agg_ctx := some agg_ctx }, .ok ())

/-- `SigCtx::init_my_nonce_share(key_ctx)`, with the source's fixed
placeholder seed of 32 zero bytes. -/
def SigCtx.init_my_nonce_share (μ : Musig) (c : SigCtx) (key_ctx : KeyCtx) :
    SigCtx × Result Unit :=
  match key_ctx.aggregated_pub_key with
  | none => (c, .error .MissingAggPubKey)
  | some aggregated_pub_key =>
    ({ c with my_nonce_share := some (NoncePair.new μ (List.replicate 32 0) aggregated_pub_key) },
     .ok ())

/-- `SigCtx::get_nonce_shares`: same role-dependent ordering as key shares. -/
def SigCtx.get_nonce_shares (c : SigCtx) : Option (PubNonce × PubNonce) :=
  if c.am_buyer then
    match c.my_nonce_share, c.peers_nonce_share with
    | some mine, some peers => some (mine.pub_nonce, peers)
    | _, _ => none
  else
    match c.peers_nonce_share, c.my_nonce_share with
    | some peers, some mine => some (peers, mine.pub_nonce)
    | _, _ => none

/-- `SigCtx::aggregate_nonce_shares`. -/
def SigCtx.aggregate_nonce_shares (c : SigCtx) : SigCtx × Result Unit :=
  match c.get_nonce_shares with
  | none => (c, .error .MissingKeyShare)
  | some shares => ({ c with aggregated_nonce := some (AggNonce.sum shares) }, .ok ())

/-- `SigCtx::sign_partial(key_ctx, message)`.  Note the source's order of
operations: `sec_nonce.take()` consumes the secret nonce before the
aggregated-nonce check and before the underlying signing call. -/
def SigCtx.sign_partial (μ : Musig) (c : SigCtx) (key_ctx : KeyCtx) (message : String) :
    SigCtx × Result PartialSignature :=
  match key_ctx.key_agg_ctx with
  | none => (c, .error .MissingAggPubKey)
  | some key_agg_ctx =>
    match key_ctx.my_key_share with
    | none => (c, .error .MissingKeyShare)
    | some key_share =>
      match c.my_nonce_share with
      | none => (c, .error .MissingNonceShare)
      | some nonce_pair =>
        let c := { c with my_nonce_share := some { nonce_pair with sec_nonce := none } }
        match nonce_pair.sec_nonce with
        | none => (c, .error .NonceReuse)
        | some sec_nonce =>
          match c.aggregated_nonce with
          | none => (c, .error .MissingAggNonce)
          | some aggregated_nonce =>
            match μ.signPartialFn key_agg_ctx key_share.prv_key sec_nonce aggregated_nonce
                message with
            | none => (c, .error .Signing)
            | some sig =>
              ({ c with message := some message, my_partial_sig := some sig }, .ok sig)

/-- `SigCtx::get_partial_signatures`: same role-dependent ordering as key
shares. -/
def SigCtx.get_partial_signatures (c : SigCtx) : Option (PartialSignature × PartialSignature) :=
  if c.am_buyer then
    match c.my_partial_sig, c.peers_partial_sig with
    | some mine, some peers => some (mine, peers)
    | _, _ => none
  else
    match c.peers_partial_sig, c.my_partial_sig with
    | some peers, some mine => some (peers, mine)
    | _, _ => none

/-- `SigCtx::aggregate_partial_signatures(key_ctx)`. -/
def SigCtx.aggregate_partial_signatures (μ : Musig) (c : SigCtx) (key_ctx : KeyCtx) :
    SigCtx × Result LiftedSignature :=
  match key_ctx.key_agg_ctx with
  | none => (c, .error .MissingAggPubKey)
  | some key_agg_ctx =>
    match c.aggregated_nonce with
    | none => (c, .error .MissingAggNonce)
    | some aggregated_nonce =>
      match c.get_partial_signatures with
      | none => (c, .error .MissingPartialSig)
      | some sigs =>
        match c.message with
        | none => (c, .error .MissingPartialSig)
        | some message =>
          match μ.aggregateSigsFn key_agg_ctx aggregated_nonce sigs.1 sigs.2 message with
          | none => (c, .error .Verify)
          | some sig => ({ c with aggregated_sig := some sig }, .ok sig)

/-- `SwapTxInputScalar` from the source (storage polymorphism collapsed to
plain values). -/
inductive SwapTxInputScalar where
  | BuyersPartialSignature (sig : PartialSignature)
  | SellersAdaptor (adaptor : Adaptor)
deriving DecidableEq, Repr

/-- `ExchangedSigs` from the source (the `ByRef`/`ByVal` storage parameter
collapses to plain values in the embedding). -/
structure ExchangedSigs where
  peers_warning_tx_buyer_input_partial_signature : PartialSignature
  peers_warning_tx_seller_input_partial_signature : PartialSignature
  peers_redirect_tx_input_partial_signature : PartialSignature
  swap_tx_input_scalar : Option SwapTxInputScalar
deriving DecidableEq, Repr

/-- `TxInputParamVector<T>` from the source. -/
structure TxInputParamVector (T : Type) where
  swap_tx_input_param : T
  buyers_warning_tx_buyer_input_param : T
  buyers_warning_tx_seller_input_param : T
  sellers_warning_tx_buyer_input_param : T
  sellers_warning_tx_seller_input_param : T
  buyers_redirect_tx_input_param : T
  sellers_redirect_tx_input_param : T
deriving DecidableEq, Repr

/-- `TradeModel` from the source, with its `Default` field values.
The `f64` fee rates are modelled as rationals; they are never computed
with by any embedded operation. -/
structure TradeModel where
  trade_id : String := ""
  my_role : Role := Role.SellerAsMaker
  trade_amount : Option ℕ := none
  buyers_security_deposit : Option ℕ := none
  sellers_security_deposit : Option ℕ := none
  deposit_tx_fee_rate : Option ℚ := none
  prepared_tx_fee_rate : Option ℚ := none
  buyer_output_key_ctx : KeyCtx := {}
  seller_output_key_ctx : KeyCtx := {}
  swap_tx_input_adaptor : Option Adaptor := none
  swap_tx_input_sig_ctx : SigCtx := {}
  buyers_warning_tx_buyer_input_sig_ctx : SigCtx := {}
  buyers_warning_tx_seller_input_sig_ctx : SigCtx := {}
  sellers_warning_tx_buyer_input_sig_ctx : SigCtx := {}
  sellers_warning_tx_seller_input_sig_ctx : SigCtx := {}
  buyers_redirect_tx_input_sig_ctx : SigCtx := {}
  sellers_redirect_tx_input_sig_ctx : SigCtx := {}
deriving DecidableEq, Repr

/-- `TradeModel::am_buyer`. -/
def TradeModel.am_buyer (m : TradeModel) : Bool :=
  m.my_role == Role.BuyerAsMaker || m.my_role == Role.BuyerAsTaker

/-- `TradeModel::new(trade_id, my_role)`: propagates the `am_buyer` flag to
both key contexts and all seven signing contexts. -/
def TradeModel.new (trade_id : String) (my_role : Role) : TradeModel :=
  let trade_model : TradeModel := { trade_id := trade_id, my_role := my_role }
  let am_buyer := trade_model.am_buyer
  { trade_model with
    buyer_output_key_ctx := { trade_model.buyer_output_key_ctx with am_buyer := am_buyer },
    seller_output_key_ctx := { trade_model.seller_output_key_ctx with am_buyer := am_buyer },
    swap_tx_input_sig_ctx := { trade_model.swap_tx_input_sig_ctx with am_buyer := am_buyer },
    buyers_warning_tx_buyer_input_sig_ctx :=
      { trade_model.buyers_warning_tx_buyer_input_sig_ctx with am_buyer := am_buyer },
    buyers_warning_tx_seller_input_sig_ctx :=
      { trade_model.buyers_warning_tx_seller_input_sig_ctx with am_buyer := am_buyer },
    sellers_warning_tx_buyer_input_sig_ctx :=
      { trade_model.sellers_warning_tx_buyer_input_sig_ctx with am_buyer := am_buyer },
    sellers_warning_tx_seller_input_sig_ctx :=
      { trade_model.sellers_warning_tx_seller_input_sig_ctx with am_buyer := am_buyer },
    buyers_redirect_tx_input_sig_ctx :=
      { trade_model.buyers_redirect_tx_input_sig_ctx with am_buyer := am_buyer },
    sellers_redirect_tx_input_sig_ctx :=
      { trade_model.sellers_redirect_tx_input_sig_ctx with am_buyer := am_buyer } }

/-- `TradeModel::init_my_key_shares`. -/
def TradeModel.init_my_key_shares (m : TradeModel) : TradeModel :=
  { m with buyer_output_key_ctx := m.buyer_output_key_ctx.init_my_key_share,
           seller_output_key_ctx := m.seller_output_key_ctx.init_my_key_share }

/-- `TradeModel::get_my_key_shares`. -/
def TradeModel.get_my_key_shares (m : TradeModel) : Option (KeyPair × KeyPair) :=
  match m.buyer_output_key_ctx.my_key_share, m.seller_output_key_ctx.my_key_share with
  | some b, some s => some (b, s)
  | _, _ => none

/-- `TradeModel::set_peer_key_shares(buyer_output_pub_key, seller_output_pub_key)`. -/
def TradeModel.set_peer_key_shares (m : TradeModel) (buyer_output_pub_key : Point)
    (seller_output_pub_key : Point) : TradeModel :=
  { m with
    buyer_output_key_ctx :=
      { m.buyer_output_key_ctx with peers_key_share := some buyer_output_pub_key },
    seller_output_key_ctx :=
      { m.seller_output_key_ctx with peers_key_share := some seller_output_pub_key } }

/-- `TradeModel::aggregate_key_shares`: buyer-output context first, then
seller-output, short-circuiting on error. -/
def TradeModel.aggregate_key_shares (μ : Musig) (m : TradeModel) : TradeModel × Result Unit :=
  match KeyCtx.aggregate_key_shares μ m.buyer_output_key_ctx with
  | (k, .error e) => ({ m with buyer_output_key_ctx := k }, .error e)
  | (k, .ok _) =>
    let m := { m with buyer_output_key_ctx := k }
    match KeyCtx.aggregate_key_shares μ m.seller_output_key_ctx with
    | (k, .error e) => ({ m with seller_output_key_ctx := k }, .error e)
    | (k, .ok _) => ({ m with seller_output_key_ctx := k }, .ok ())

/-- `TradeModel::init_my_nonce_shares`: three contexts bound to the
buyer-output key context, then four bound to the seller-output one, in the
source's loop order. -/
def TradeModel.init_my_nonce_shares (μ : Musig) (m : TradeModel) : TradeModel × Result Unit :=
  match SigCtx.init_my_nonce_share μ m.buyers_warning_tx_buyer_input_sig_ctx
      m.buyer_output_key_ctx with
  | (c, .error e) => ({ m with buyers_warning_tx_buyer_input_sig_ctx := c }, .error e)
  | (c, .ok _) =>
  let m := { m with buyers_warning_tx_buyer_input_sig_ctx := c }
  match SigCtx.init_my_nonce_share μ m.sellers_warning_tx_buyer_input_sig_ctx
      m.buyer_output_key_ctx with
  | (c, .error e) => ({ m with sellers_warning_tx_buyer_input_sig_ctx := c }, .error e)
  | (c, .ok _) =>
  let m := { m with sellers_warning_tx_buyer_input_sig_ctx := c }
  match SigCtx.init_my_nonce_share μ m.buyers_redirect_tx_input_sig_ctx
      m.buyer_output_key_ctx with
  | (c, .error e) => ({ m with buyers_redirect_tx_input_sig_ctx := c }, .error e)
  | (c, .ok _) =>
  let m := { m with buyers_redirect_tx_input_sig_ctx := c }
  match SigCtx.init_my_nonce_share μ m.swap_tx_input_sig_ctx m.seller_output_key_ctx with
  | (c, .error e) => ({ m with swap_tx_input_sig_ctx := c }, .error e)
  | (c, .ok _) =>
  let m := { m with swap_tx_input_sig_ctx := c }
  match SigCtx.init_my_nonce_share μ m.buyers_warning_tx_seller_input_sig_ctx
      m.seller_output_key_ctx with
  | (c, .error e) => ({ m with buyers_warning_tx_seller_input_sig_ctx := c }, .error e)
  | (c, .ok _) =>
  let m := { m with buyers_warning_tx_seller_input_sig_ctx := c }
  match SigCtx.init_my_nonce_share μ m.sellers_warning_tx_seller_input_sig_ctx
      m.seller_output_key_ctx with
  | (c, .error e) => ({ m with sellers_warning_tx_seller_input_sig_ctx := c }, .error e)
  | (c, .ok _) =>
  let m := { m with sellers_warning_tx_seller_input_sig_ctx := c }
  match SigCtx.init_my_nonce_share μ m.sellers_redirect_tx_input_sig_ctx
      m.seller_output_key_ctx with
  | (c, .error e) => ({ m with sellers_redirect_tx_input_sig_ctx := c }, .error e)
  | (c, .ok _) => ({ m with sellers_redirect_tx_input_sig_ctx := c }, .ok ())

/-- `TradeModel::get_my_nonce_shares`. -/
def TradeModel.get_my_nonce_shares (m : TradeModel) : Option (TxInputParamVector PubNonce) :=
  match m.swap_tx_input_sig_ctx.my_nonce_share,
      m.buyers_warning_tx_buyer_input_sig_ctx.my_nonce_share,
      m.buyers_warning_tx_seller_input_sig_ctx.my_nonce_share,
      m.sellers_warning_tx_buyer_input_sig_ctx.my_nonce_share,
      m.sellers_warning_tx_seller_input_sig_ctx.my_nonce_share,
      m.buyers_redirect_tx_input_sig_ctx.my_nonce_share,
      m.sellers_redirect_tx_input_sig_ctx.my_nonce_share with
  | some n1, some n2, some n3, some n4, some n5, some n6, some n7 =>
    some { swap_tx_input_param := n1.pub_nonce,
           buyers_warning_tx_buyer_input_param := n2.pub_nonce,
           buyers_warning_tx_seller_input_param := n3.pub_nonce,
           sellers_warning_tx_buyer_input_param := n4.pub_nonce,
           sellers_warning_tx_seller_input_param := n5.pub_nonce,
           buyers_redirect_tx_input_param := n6.pub_nonce,
           sellers_redirect_tx_input_param := n7.pub_nonce }
  | _, _, _, _, _, _, _ => none

/-- `TradeModel::set_peer_nonce_shares(peer_nonce_shares)`. -/
def TradeModel.set_peer_nonce_shares (m : TradeModel)
    (peer_nonce_shares : TxInputParamVector PubNonce) : TradeModel :=
  { m with
    swap_tx_input_sig_ctx :=
      { m.swap_tx_input_sig_ctx with
        peers_nonce_share := some peer_nonce_shares.swap_tx_input_param },
    buyers_warning_tx_buyer_input_sig_ctx :=
      { m.buyers_warning_tx_buyer_input_sig_ctx with
        peers_nonce_share := some peer_nonce_shares.buyers_warning_tx_buyer_input_param },
    buyers_warning_tx_seller_input_sig_ctx :=
      { m.buyers_warning_tx_seller_input_sig_ctx with
        peers_nonce_share := some peer_nonce_shares.buyers_warning_tx_seller_input_param },
    sellers_warning_tx_buyer_input_sig_ctx :=
      { m.sellers_warning_tx_buyer_input_sig_ctx with
        peers_nonce_share := some peer_nonce_shares.sellers_warning_tx_buyer_input_param },
    sellers_warning_tx_seller_input_sig_ctx :=
      { m.sellers_warning_tx_seller_input_sig_ctx with
        peers_nonce_share := some peer_nonce_shares.sellers_warning_tx_seller_input_param },
    buyers_redirect_tx_input_sig_ctx :=
      { m.buyers_redirect_tx_input_sig_ctx with
        peers_nonce_share := some peer_nonce_shares.buyers_redirect_tx_input_param },
    sellers_redirect_tx_input_sig_ctx :=
      { m.sellers_redirect_tx_input_sig_ctx with
        peers_nonce_share := some peer_nonce_shares.sellers_redirect_tx_input_param } }

/-- `TradeModel::aggregate_nonce_shares`: the seven contexts in source
order, short-circuiting on error. -/
def TradeModel.aggregate_nonce_shares (m : TradeModel) : TradeModel × Result Unit :=
  match SigCtx.aggregate_nonce_shares m.swap_tx_input_sig_ctx with
  | (c, .error e) => ({ m with swap_tx_input_sig_ctx := c }, .error e)
  | (c, .ok _) =>
  let m := { m with swap_tx_input_sig_ctx := c }
  match SigCtx.aggregate_nonce_shares m.buyers_warning_tx_buyer_input_sig_ctx with
  | (c, .error e) => ({ m with buyers_warning_tx_buyer_input_sig_ctx := c }, .error e)
  | (c, .ok _) =>
  let m := { m with buyers_warning_tx_buyer_input_sig_ctx := c }
  match SigCtx.aggregate_nonce_shares m.buyers_warning_tx_seller_input_sig_ctx with
  | (c, .error e) => ({ m with buyers_warning_tx_seller_input_sig_ctx := c }, .error e)
  | (c, .ok _) =>
  let m := { m with buyers_warning_tx_seller_input_sig_ctx := c }
  match SigCtx.aggregate_nonce_shares m.sellers_warning_tx_buyer_input_sig_ctx with
  | (c, .error e) => ({ m with sellers_warning_tx_buyer_input_sig_ctx := c }, .error e)
  | (c, .ok _) =>
  let m := { m with sellers_warning_tx_buyer_input_sig_ctx := c }
  match SigCtx.aggregate_nonce_shares m.sellers_warning_tx_seller_input_sig_ctx with
  | (c, .error e) => ({ m with sellers_warning_tx_seller_input_sig_ctx := c }, .error e)
  | (c, .ok _) =>
  let m := { m with sellers_warning_tx_seller_input_sig_ctx := c }
  match SigCtx.aggregate_nonce_shares m.buyers_redirect_tx_input_sig_ctx with
  | (c, .error e) => ({ m with buyers_redirect_tx_input_sig_ctx := c }, .error e)
  | (c, .ok _) =>
  let m := { m with buyers_redirect_tx_input_sig_ctx := c }
  match SigCtx.aggregate_nonce_shares m.sellers_redirect_tx_input_sig_ctx with
  | (c, .error e) => ({ m with sellers_redirect_tx_input_sig_ctx := c }, .error e)
  | (c, .ok _) => ({ m with sellers_redirect_tx_input_sig_ctx := c }, .ok ())

/-- `TradeModel::sign_partial`: signs the three buyer-output inputs, then
the four seller-output inputs (swap first), with the source's fixed
placeholder messages, short-circuiting on error; finally, a seller computes
the swap-tx adaptor as its seller-output private key share minus its swap
partial signature.  The source's two `unwrap()` calls are provably
reachable only with both options present (the swap signing just succeeded
against the seller-output key context); the impossible branch is modelled
as a `Signing` error. -/
def TradeModel.sign_partial (μ : Musig) (m : TradeModel) : TradeModel × Result Unit :=
  match SigCtx.sign_partial μ m.buyers_warning_tx_buyer_input_sig_ctx m.buyer_output_key_ctx
      "buyer\x27s warning tx buyer input" with
  | (c, .error e) => ({ m with buyers_warning_tx_buyer_input_sig_ctx := c }, .error e)
  | (c, .ok _) =>
  let m := { m with buyers_warning_tx_buyer_input_sig_ctx := c }
  match SigCtx.sign_partial μ m.sellers_warning_tx_buyer_input_sig_ctx m.buyer_output_key_ctx
      "seller\x27s warning tx buyer input" with
  | (c, .error e) => ({ m with sellers_warning_tx_buyer_input_sig_ctx := c }, .error e)
  | (c, .ok _) =>
  let m := { m with sellers_warning_tx_buyer_input_sig_ctx := c }
  match SigCtx.sign_partial μ m.buyers_redirect_tx_input_sig_ctx m.buyer_output_key_ctx
      "buyer\x27s redirect tx input" with
  | (c, .error e) => ({ m with buyers_redirect_tx_input_sig_ctx := c }, .error e)
  | (c, .ok _) =>
  let m := { m with buyers_redirect_tx_input_sig_ctx := c }
  match SigCtx.sign_partial μ m.swap_tx_input_sig_ctx m.seller_output_key_ctx
      "swap tx input" with
  | (c, .error e) => ({ m with swap_tx_input_sig_ctx := c }, .error e)
  | (c, .ok _) =>
  let m := { m with swap_tx_input_sig_ctx := c }
  match SigCtx.sign_partial μ m.buyers_warning_tx_seller_input_sig_ctx m.seller_output_key_ctx
      "buyer\x27s warning tx seller input" with
  | (c, .error e) => ({ m with buyers_warning_tx_seller_input_sig_ctx := c }, .error e)
  | (c, .ok _) =>
  let m := { m with buyers_warning_tx_seller_input_sig_ctx := c }
  match SigCtx.sign_partial μ m.sellers_warning_tx_seller_input_sig_ctx m.seller_output_key_ctx
      "seller\x27s warning tx seller input" with
  | (c, .error e) => ({ m with sellers_warning_tx_seller_input_sig_ctx := c }, .error e)
  | (c, .ok _) =>
  let m := { m with sellers_warning_tx_seller_input_sig_ctx := c }
  match SigCtx.sign_partial μ m.sellers_redirect_tx_input_sig_ctx m.seller_output_key_ctx
      "seller\x27s redirect tx input" with
  | (c, .error e) => ({ m with sellers_redirect_tx_input_sig_ctx := c }, .error e)
  | (c, .ok _) =>
  let m := { m with sellers_redirect_tx_input_sig_ctx := c }
  if m.am_buyer then (m, .ok ()) else
    match m.seller_output_key_ctx.my_key_share, m.swap_tx_input_sig_ctx.my_partial_sig with
    | some key_share, some sig =>
      ({ m with swap_tx_input_adaptor := some (key_share.prv_key - sig) }, .ok ())
    | _, _ => (m, .error .Signing)

/-- `TradeModel::get_my_partial_signatures_on_peer_txs`. -/
def TradeModel.get_my_partial_signatures_on_peer_txs (m : TradeModel) : Option ExchangedSigs :=
  if m.am_buyer then
    match m.sellers_warning_tx_buyer_input_sig_ctx.my_partial_sig,
        m.sellers_warning_tx_seller_input_sig_ctx.my_partial_sig,
        m.sellers_redirect_tx_input_sig_ctx.my_partial_sig,
        m.swap_tx_input_sig_ctx.my_partial_sig with
    | some s1, some s2, some s3, some s4 =>
      some { peers_warning_tx_buyer_input_partial_signature := s1,
             peers_warning_tx_seller_input_partial_signature := s2,
             peers_redirect_tx_input_partial_signature := s3,
             swap_tx_input_scalar := some (SwapTxInputScalar.BuyersPartialSignature s4) }
    | _, _, _, _ => none
  else
    match m.buyers_warning_tx_buyer_input_sig_ctx.my_partial_sig,
        m.buyers_warning_tx_seller_input_sig_ctx.my_partial_sig,
        m.buyers_redirect_tx_input_sig_ctx.my_partial_sig,
        m.swap_tx_input_adaptor with
    | some s1, some s2, some s3, some a =>
      some { peers_warning_tx_buyer_input_partial_signature := s1,
             peers_warning_tx_seller_input_partial_signature := s2,
             peers_redirect_tx_input_partial_signature := s3,
             swap_tx_input_scalar := some (SwapTxInputScalar.SellersAdaptor a) }
    | _, _, _, _ => none

/-- `TradeModel::set_peer_partial_signatures_on_my_txs(sigs)`. -/
def TradeModel.set_peer_partial_signatures_on_my_txs (m : TradeModel) (sigs : ExchangedSigs) :
    TradeModel :=
  if m.am_buyer then
    let m := { m with
      buyers_warning_tx_buyer_input_sig_ctx :=
        { m.buyers_warning_tx_buyer_input_sig_ctx with
          peers_partial_sig := some sigs.peers_warning_tx_buyer_input_partial_signature },
      buyers_warning_tx_seller_input_sig_ctx :=
        { m.buyers_warning_tx_seller_input_sig_ctx with
          peers_partial_sig := some sigs.peers_warning_tx_seller_input_partial_signature },
      buyers_redirect_tx_input_sig_ctx :=
        { m.buyers_redirect_tx_input_sig_ctx with
          peers_partial_sig := some sigs.peers_redirect_tx_input_partial_signature } }
    match sigs.swap_tx_input_scalar with
    | some (SwapTxInputScalar.SellersAdaptor adaptor) =>
      { m with swap_tx_input_adaptor := some adaptor }
    | _ => m
  else
    let m := { m with
      sellers_warning_tx_buyer_input_sig_ctx :=
        { m.sellers_warning_tx_buyer_input_sig_ctx with
          peers_partial_sig := some sigs.peers_warning_tx_buyer_input_partial_signature },
      sellers_warning_tx_seller_input_sig_ctx :=
        { m.sellers_warning_tx_seller_input_sig_ctx with
          peers_partial_sig := some sigs.peers_warning_tx_seller_input_partial_signature },
      sellers_redirect_tx_input_sig_ctx :=
        { m.sellers_redirect_tx_input_sig_ctx with
          peers_partial_sig := some sigs.peers_redirect_tx_input_partial_signature } }
    match sigs.swap_tx_input_scalar with
    | some (SwapTxInputScalar.BuyersPartialSignature sig) =>
      { m with swap_tx_input_sig_ctx :=
        { m.swap_tx_input_sig_ctx with peers_partial_sig := some sig } }
    | _ => m

/-- `TradeModel::aggregate_partial_signatures`: three role-dependent
aggregations, short-circuiting on error. -/
def TradeModel.aggregate_partial_signatures (μ : Musig) (m : TradeModel) :
    TradeModel × Result Unit :=
  if m.am_buyer then
    match SigCtx.aggregate_partial_signatures μ m.buyers_warning_tx_buyer_input_sig_ctx
        m.buyer_output_key_ctx with
    | (c, .error e) => ({ m with buyers_warning_tx_buyer_input_sig_ctx := c }, .error e)
    | (c, .ok _) =>
    let m := { m with buyers_warning_tx_buyer_input_sig_ctx := c }
    match SigCtx.aggregate_partial_signatures μ m.buyers_warning_tx_seller_input_sig_ctx
        m.seller_output_key_ctx with
    | (c, .error e) => ({ m with buyers_warning_tx_seller_input_sig_ctx := c }, .error e)
    | (c, .ok _) =>
    let m := { m with buyers_warning_tx_seller_input_sig_ctx := c }
    match SigCtx.aggregate_partial_signatures μ m.buyers_redirect_tx_input_sig_ctx
        m.buyer_output_key_ctx with
    | (c, .error e) => ({ m with buyers_redirect_tx_input_sig_ctx := c }, .error e)
    | (c, .ok _) => ({ m with buyers_redirect_tx_input_sig_ctx := c }, .ok ())
  else
    match SigCtx.aggregate_partial_signatures μ m.sellers_warning_tx_buyer_input_sig_ctx
        m.buyer_output_key_ctx with
    | (c, .error e) => ({ m with sellers_warning_tx_buyer_input_sig_ctx := c }, .error e)
    | (c, .ok _) =>
    let m := { m with sellers_warning_tx_buyer_input_sig_ctx := c }
    match SigCtx.aggregate_partial_signatures μ m.sellers_warning_tx_seller_input_sig_ctx
        m.seller_output_key_ctx with
    | (c, .error e) => ({ m with sellers_warning_tx_seller_input_sig_ctx := c }, .error e)
    | (c, .ok _) =>
    let m := { m with sellers_warning_tx_seller_input_sig_ctx := c }
    match SigCtx.aggregate_partial_signatures μ m.sellers_redirect_tx_input_sig_ctx
        m.seller_output_key_ctx with
    | (c, .error e) => ({ m with sellers_redirect_tx_input_sig_ctx := c }, .error e)
    | (c, .ok _) => ({ m with sellers_redirect_tx_input_sig_ctx := c }, .ok ())

/-- `TradeModel::set_swap_tx_input_peers_partial_signature(sig)`. -/
def TradeModel.set_swap_tx_input_peers_partial_signature (m : TradeModel)
    (sig : PartialSignature) : TradeModel × Result Unit :=
  ({ m with swap_tx_input_sig_ctx :=
      { m.swap_tx_input_sig_ctx with peers_partial_sig := some sig } }, .ok ())

/-- `TradeModel::aggregate_swap_tx_partial_signatures`: aggregates the
swap-tx-input context against `buyer_output_key_ctx` for a buyer and
`seller_output_key_ctx` for a seller. -/
def TradeModel.aggregate_swap_tx_partial_signatures (μ : Musig) (m : TradeModel) :
    TradeModel × Result Unit :=
  let my_key_ctx := if m.am_buyer then m.buyer_output_key_ctx else m.seller_output_key_ctx
  match SigCtx.aggregate_partial_signatures μ m.swap_tx_input_sig_ctx my_key_ctx with
  | (c, .error e) => ({ m with swap_tx_input_sig_ctx := c }, .error e)
  | (c, .ok _) => ({ m with swap_tx_input_sig_ctx := c }, .ok ())

/-- `TradeModel::get_my_private_key_share_for_peer_output`. -/
def TradeModel.get_my_private_key_share_for_peer_output (m : TradeModel) : Option Scalar :=
  let peer_key_ctx := if m.am_buyer then m.seller_output_key_ctx else m.buyer_output_key_ctx
  match peer_key_ctx.my_key_share with
  | some key_share => some key_share.prv_key
  | none => none

/-- `TradeModel::set_peer_private_key_share_for_my_output(prv_key_share)`:
the source body is a `TODO: Implement.` stub that ignores its argument and
returns `Ok(())`. -/
def TradeModel.set_peer_private_key_share_for_my_output (m : TradeModel)
    (_prv_key_share : Scalar) : TradeModel × Result Unit :=
  (m, .ok ())

/-- The in-memory trade store (`BTreeMap<String, TradeModel>` behind locks),
modelled as an association list with at most one entry per key. -/
abbrev TradeModelMemoryStore := List (String × TradeModel)

/-- `TradeModelStore::add_trade_model`: map insertion keyed by `trade_id`,
silently replacing an existing entry with the same id. -/
def add_trade_model (store : TradeModelMemoryStore) (trade_model : TradeModel) :
    TradeModelMemoryStore :=
  match store with
  | [] => [(trade_model.trade_id, trade_model)]
  | (k, v) :: rest =>
    if k = trade_model.trade_id then (k, trade_model) :: rest
    else (k, v) :: add_trade_model rest trade_model

/-- `TradeModelStore::get_trade_model`: map lookup by trade id. -/
def get_trade_model (store : TradeModelMemoryStore) (trade_id : String) : Option TradeModel :=
  match store with
  | [] => none
  | (k, v) :: rest => if k = trade_id then some v else get_trade_model rest trade_id

/-! Concrete fixtures: a concrete instance of the abstract `musig2`
operations and a pair of peer trade models run through the protocol rounds,
used to evaluate the embedding on explicit inputs. -/

/-- A concrete, everywhere-succeeding instance of the abstract `musig2`
operations, for evaluating the embedding on explicit inputs. -/
def musig0 : Musig where
  keyAggNew := fun a b => some (a, b)
  aggregated_pubkey := fun ctx => ctx.1 + ctx.2
  secNonceBuild := fun _ p => (p + 1, p + 2)
  signPartialFn := fun _ sk sn _ _ => some (sn.1 + sk)
  aggregateSigsFn := fun _ an s1 s2 _ => some (an.1, s1 + s2)

/-- Seller-role model after R0 (`new` then `init_my_key_shares`). -/
def sellerR0 : TradeModel :=
  TradeModel.init_my_key_shares (TradeModel.new "trade-1" Role.SellerAsMaker)

/-- Buyer-role model after R0. -/
def buyerR0 : TradeModel :=
  TradeModel.init_my_key_shares (TradeModel.new "trade-1" Role.BuyerAsTaker)

/-- Seller-role model after R1 (peer key shares set, key shares
aggregated); both peers hold the placeholder key pair, whose public share
is `base_point_mul 1`. -/
def sellerR1 : TradeModel :=
  (TradeModel.aggregate_key_shares musig0
    (TradeModel.set_peer_key_shares sellerR0 (base_point_mul 1) (base_point_mul 1))).1

/-- Buyer-role model after R1. -/
def buyerR1 : TradeModel :=
  (TradeModel.aggregate_key_shares musig0
    (TradeModel.set_peer_key_shares buyerR0 (base_point_mul 1) (base_point_mul 1))).1

/-- Seller-role model after R2 (own nonce shares created). -/
def sellerR2 : TradeModel := (TradeModel.init_my_nonce_shares musig0 sellerR1).1

/-- Buyer-role model after R2. -/
def buyerR2 : TradeModel := (TradeModel.init_my_nonce_shares musig0 buyerR1).1

/-- Placeholder nonce vector used only as an `Option.getD` default. -/
def dummyNonces : TxInputParamVector PubNonce :=
  ⟨(0, 0), (0, 0), (0, 0), (0, 0), (0, 0), (0, 0), (0, 0)⟩

/-- Seller-role model after R3 (peer nonce shares set, nonces aggregated). -/
def sellerR3 : TradeModel :=
  (TradeModel.aggregate_nonce_shares
    (TradeModel.set_peer_nonce_shares sellerR2
      ((TradeModel.get_my_nonce_shares buyerR2).getD dummyNonces))).1

/-- Buyer-role model after R3. -/
def buyerR3 : TradeModel :=
  (TradeModel.aggregate_nonce_shares
    (TradeModel.set_peer_nonce_shares buyerR2
      ((TradeModel.get_my_nonce_shares sellerR2).getD dummyNonces))).1

/-- Seller-role model after R4 (partial signatures and swap adaptor). -/
def sellerR4 : TradeModel := (TradeModel.sign_partial musig0 sellerR3).1

/-- Buyer-role model after R4. -/
def buyerR4 : TradeModel := (TradeModel.sign_partial musig0 buyerR3).1

/-- Placeholder exchanged-signature record used only as a `getD` default. -/
def dummySigs : ExchangedSigs := ⟨0, 0, 0, none⟩

/-- Buyer-role model after R5 (the seller's exchanged signatures, including
the swap-tx adaptor, deposited on the buyer's transactions). -/
def buyerR5 : TradeModel :=
  TradeModel.set_peer_partial_signatures_on_my_txs buyerR4
    ((TradeModel.get_my_partial_signatures_on_peer_txs sellerR4).getD dummySigs)

/-- A key context ready for signing: aggregated, with both shares present. -/
def kctx0 : KeyCtx :=
  { am_buyer := false, my_key_share := some KeyPair.new,
    peers_key_share := some (base_point_mul 1),
    aggregated_pub_key := some (musig0.aggregated_pubkey (base_point_mul 1, base_point_mul 1)),
    key_agg_ctx := some (base_point_mul 1, base_point_mul 1) }

/-- A signing context ready for `sign_partial`: fresh nonce pair, peer
nonce received, aggregated nonce present. -/
def sctx0 : SigCtx :=
  { am_buyer := false,
    my_nonce_share := some (NoncePair.new musig0 (List.replicate 32 0) 2),
    peers_nonce_share := some (3, 4),
    aggregated_nonce := some (6, 8) }

/-! Theorems -/

/-- Claim C10: `set_swap_tx_input_peers_partial_signature` always returns
`Ok` and unconditionally stores the given partial signature as the
swap-tx-input peer partial signature, overwriting any previously stored
value (the model `m` is arbitrary, so in particular it may already hold
one), with no precondition check, validation, or one-shot protection, and
no other change to the model. -/
theorem set_swap_peer_sig_unconditional (m : TradeModel) (sig : PartialSignature) :
    TradeModel.set_swap_tx_input_peers_partial_signature m sig =
      ({ m with swap_tx_input_sig_ctx :=
          { m.swap_tx_input_sig_ctx with peers_partial_sig := some sig } }, Except.ok ()) :=
  rfl

/-- Claim C6: the two-element input assembled for aggregation is ordered
`[own, peer]` when `am_buyer` is true and `[peer, own]` when `am_buyer` is
false, uniformly for key shares, public nonce shares, and partial
signatures. -/
theorem role_dependent_ordering_uniform :
    (∀ (k : KeyCtx) (ks : KeyPair) (p : Point),
      k.my_key_share = some ks → k.peers_key_share = some p →
      k.get_key_shares = some (if k.am_buyer then (ks.pub_key, p) else (p, ks.pub_key)))
    ∧ (∀ (c : SigCtx) (np : NoncePair) (p : PubNonce),
      c.my_nonce_share = some np → c.peers_nonce_share = some p →
      c.get_nonce_shares = some (if c.am_buyer then (np.pub_nonce, p) else (p, np.pub_nonce)))
    ∧ (∀ (c : SigCtx) (s1 s2 : PartialSignature),
      c.my_partial_sig = some s1 → c.peers_partial_sig = some s2 →
      c.get_partial_signatures = some (if c.am_buyer then (s1, s2) else (s2, s1))) := by
  refine ⟨fun k ks p h1 h2 => ?_, fun c np p h1 h2 => ?_, fun c s1 s2 h1 h2 => ?_⟩
  · cases hb : k.am_buyer <;> simp [KeyCtx.get_key_shares, hb, h1, h2]
  · cases hb : c.am_buyer <;> simp [SigCtx.get_nonce_shares, hb, h1, h2]
  · cases hb : c.am_buyer <;> simp [SigCtx.get_partial_signatures, hb, h1, h2]

/-- Witness for C6 at concrete contexts in both roles. -/
theorem role_dependent_ordering_uniform_witness :
    kctx0.get_key_shares = some (base_point_mul 1, KeyPair.new.pub_key)
    ∧ sctx0.get_nonce_shares = some ((3, 4), (NoncePair.new musig0 (List.replicate 32 0) 2).pub_nonce) := by
  constructor
  · have h := role_dependent_ordering_uniform.1 kctx0 KeyPair.new (base_point_mul 1) rfl rfl
    simpa using h
  · have h := role_dependent_ordering_uniform.2.1 sctx0
      (NoncePair.new musig0 (List.replicate 32 0) 2) (3, 4) rfl rfl
    simpa using h

/-- Lookup after inserting a model finds that model under its trade id. -/
theorem get_after_add_same (s : TradeModelMemoryStore) (tm : TradeModel) :
    get_trade_model (add_trade_model s tm) tm.trade_id = some tm := by
  induction s with
  | nil => simp [add_trade_model, get_trade_model]
  | cons hd tl ih =>
    obtain ⟨k, v⟩ := hd
    by_cases hk : k = tm.trade_id
    · simp [add_trade_model, get_trade_model, hk]
    · simp [add_trade_model, get_trade_model, hk, ih]

/-- Inserting a model does not disturb lookups under other ids. -/
theorem get_after_add_other (s : TradeModelMemoryStore) (tm : TradeModel) (i : String)
    (h : i ≠ tm.trade_id) :
    get_trade_model (add_trade_model s tm) i = get_trade_model s i := by
  induction s with
  | nil => simp [add_trade_model, get_trade_model, Ne.symm h]
  | cons hd tl ih =>
    obtain ⟨k, v⟩ := hd
    by_cases hk : k = tm.trade_id
    · simp [add_trade_model, get_trade_model, hk, Ne.symm h]
    · by_cases hi : k = i
      · subst hi
        simp [add_trade_model, get_trade_model, hk]
      · simp [add_trade_model, get_trade_model, hk, hi, ih]

/-- Lookup of an id that no inserted model carries stays empty. -/
theorem get_foldl_not_added (tms : List TradeModel) (i : String) :
    ∀ s : TradeModelMemoryStore, i ∉ tms.map TradeModel.trade_id →
      get_trade_model s i = none →
      get_trade_model (tms.foldl add_trade_model s) i = none := by
  induction tms with
  | nil => intro s _ h0; simpa using h0
  | cons hd tl ih =>
    intro s h h0
    simp only [List.map_cons, List.mem_cons, not_or] at h
    rw [List.foldl_cons]
    exact ih (add_trade_model s hd) h.2
      (by rw [get_after_add_other s hd i h.1]; exact h0)

/-- Claim C9: `add_trade_model` inserts the model under its `trade_id`,
silently overwriting any previously stored model with the same id, so a
subsequent `get_trade_model` with that id returns the most recently added
model; other ids are unaffected; and an id never added looks up to
`none`. -/
theorem trade_store_insert_lookup :
    (∀ (s : TradeModelMemoryStore) (tm : TradeModel),
      get_trade_model (add_trade_model s tm) tm.trade_id = some tm)
    ∧ (∀ (s : TradeModelMemoryStore) (tm : TradeModel) (i : String), i ≠ tm.trade_id →
      get_trade_model (add_trade_model s tm) i = get_trade_model s i)
    ∧ (∀ (tms : List TradeModel) (i : String), i ∉ tms.map TradeModel.trade_id →
      get_trade_model (tms.foldl add_trade_model []) i = none) :=
  ⟨get_after_add_same, get_after_add_other,
   fun tms i h => get_foldl_not_added tms i [] h rfl⟩

/-- Witness for C9: overwriting a stored model with a same-id model, an
unrelated id surviving the insert, and a never-added id looking up empty. -/
theorem trade_store_insert_lookup_witness :
    get_trade_model (add_trade_model (add_trade_model [] sellerR0) sellerR1) sellerR1.trade_id =
      some sellerR1
    ∧ ("other" ≠ sellerR0.trade_id
        ∧ get_trade_model (add_trade_model [] sellerR0) "other" = get_trade_model [] "other")
    ∧ ("trade-2" ∉ [sellerR0].map TradeModel.trade_id
        ∧ get_trade_model ([sellerR0].foldl add_trade_model []) "trade-2" = none) := by
  have h1 : "other" ≠ sellerR0.trade_id := by decide
  have h2 : "trade-2" ∉ [sellerR0].map TradeModel.trade_id := by decide
  exact ⟨trade_store_insert_lookup.1 (add_trade_model [] sellerR0) sellerR1,
    ⟨h1, trade_store_insert_lookup.2.1 [] sellerR0 "other" h1⟩,
    ⟨h2, trade_store_insert_lookup.2.2 [sellerR0] "trade-2" h2⟩⟩

/-- Trade model with the peer public key shares set, both to
`base_point_mul 1`. -/
def mC1 : TradeModel :=
  TradeModel.set_peer_key_shares sellerR0 (base_point_mul 1) (base_point_mul 1)

/-- Claim C1: the source of `set_peer_private_key_share_for_my_output` is a
`TODO: Implement.` stub.  Evaluated at a model that has received the peer
public key shares and at the scalar 2, whose base-point multiple differs
from the stored share, the call still returns `Ok` and leaves the model
unchanged, instead of failing with the `MismatchedKeyPair` error the
specification requires (no such variant even exists in
`ProtocolErrorKind`). -/
theorem peer_prv_key_share_stub_accepts_any_scalar :
    mC1.seller_output_key_ctx.peers_key_share = some (base_point_mul 1)
    ∧ base_point_mul 2 ≠ base_point_mul 1
    ∧ TradeModel.set_peer_private_key_share_for_my_output mC1 2 = (mC1, Except.ok ()) :=
  ⟨rfl, by decide, rfl⟩

/-- Claim C3: `sign_partial` succeeds at most once per `SigCtx`: after one
successful call, every subsequent `sign_partial` on the resulting context
(against the same key context, so the other preconditions still hold)
fails with `NonceReuse`, because the secret nonce is taken out of the
nonce pair permanently on first use. -/
theorem sign_partial_one_shot :
    ∀ (μ : Musig) (c : SigCtx) (k : KeyCtx) (msg : String) (c2 : SigCtx)
      (sig : PartialSignature), SigCtx.sign_partial μ c k msg = (c2, Except.ok sig) →
      ∀ msg2 : String,
        ( SigCtx.sign_partial μ c2 k msg2).2 = Except.error ProtocolErrorKind.NonceReuse := by
  intro μ c k msg c2 sig h msg2
  unfold SigCtx.sign_partial at h
  cases hkac : k.key_agg_ctx <;> rw [hkac] at h
  · simp at h
  · case some kac =>
    cases hks : k.my_key_share <;> rw [hks] at h
    · simp at h
    · case some ks =>
      cases hnp : c.my_nonce_share <;> rw [hnp] at h
      · simp at h
      · case some np =>
        cases hsn : np.sec_nonce <;> simp only [hsn] at h
        · simp at h
        · case some sn =>
          cases han : c.aggregated_nonce <;> simp only [han] at h
          · simp at h
          · case some an =>
            cases hsig : μ.signPartialFn kac ks.prv_key sn an msg <;> simp only [hsig] at h
            · simp at h
            · case some s =>
              simp only [Prod.mk.injEq] at h
              obtain ⟨hc2, -⟩ := h
              subst hc2
              simp [SigCtx.sign_partial, hkac, hks]

/-- Witness for C3: a concrete first `sign_partial` succeeds (producing the
partial signature 4 under `musig0`) and a second call on the resulting
context fails with `NonceReuse`. -/
theorem sign_partial_one_shot_witness :
    ( SigCtx.sign_partial musig0 ( SigCtx.sign_partial musig0 sctx0 kctx0 "m").1 kctx0
      "m").2 = Except.error ProtocolErrorKind.NonceReuse :=
  sign_partial_one_shot musig0 sctx0 kctx0 "m" ( SigCtx.sign_partial musig0 sctx0 kctx0 "m").1
    4 rfl "m"

/-- Claim C5: each `SigCtx` operation, when a prerequisite is missing (the
earlier prerequisites of its checking order being present), fails with
exactly the documented error: `sign_partial` with `MissingAggPubKey`,
`MissingKeyShare`, `MissingNonceShare`, `NonceReuse`, or `MissingAggNonce`
in that order; `aggregate_nonce_shares` with `MissingKeyShare` when either
nonce share is absent; `aggregate_partial_signatures` with
`MissingPartialSig` when either partial signature or the stored message is
absent. -/
theorem missing_prerequisite_error_codes :
    (∀ (μ : Musig) (c : SigCtx) (k : KeyCtx) (msg : String), k.key_agg_ctx = none →
      ( SigCtx.sign_partial μ c k msg).2 = .error .MissingAggPubKey)
    ∧ (∀ (μ : Musig) (c : SigCtx) (k : KeyCtx) (msg : String) (kac : KeyAggContext),
      k.key_agg_ctx = some kac → k.my_key_share = none →
      ( SigCtx.sign_partial μ c k msg).2 = .error .MissingKeyShare)
    ∧ (∀ (μ : Musig) (c : SigCtx) (k : KeyCtx) (msg : String) (kac : KeyAggContext)
      (ks : KeyPair), k.key_agg_ctx = some kac → k.my_key_share = some ks →
      c.my_nonce_share = none →
      ( SigCtx.sign_partial μ c k msg).2 = .error .MissingNonceShare)
    ∧ (∀ (μ : Musig) (c : SigCtx) (k : KeyCtx) (msg : String) (kac : KeyAggContext)
      (ks : KeyPair) (np : NoncePair), k.key_agg_ctx = some kac → k.my_key_share = some ks →
      c.my_nonce_share = some np → np.sec_nonce = none →
      ( SigCtx.sign_partial μ c k msg).2 = .error .NonceReuse)
    ∧ (∀ (μ : Musig) (c : SigCtx) (k : KeyCtx) (msg : String) (kac : KeyAggContext)
      (ks : KeyPair) (np : NoncePair) (sn : SecNonce), k.key_agg_ctx = some kac →
      k.my_key_share = some ks → c.my_nonce_share = some np → np.sec_nonce = some sn →
      c.aggregated_nonce = none →
      ( SigCtx.sign_partial μ c k msg).2 = .error .MissingAggNonce)
    ∧ (∀ c : SigCtx, c.my_nonce_share = none ∨ c.peers_nonce_share = none →
      ( SigCtx.aggregate_nonce_shares c).2 = .error .MissingKeyShare)
    ∧ (∀ (μ : Musig) (c : SigCtx) (k : KeyCtx) (kac : KeyAggContext) (an : AggNonce),
      k.key_agg_ctx = some kac → c.aggregated_nonce = some an →
      c.my_partial_sig = none ∨ c.peers_partial_sig = none ∨ c.message = none →
      ( SigCtx.aggregate_partial_signatures μ c k).2 = .error .MissingPartialSig) := by
  refine ⟨?_, ?_, ?_, ?_, ?_, ?_, ?_⟩
  · intro μ c k msg h1
    simp [SigCtx.sign_partial, h1]
  · intro μ c k msg kac h1 h2
    simp [SigCtx.sign_partial, h1, h2]
  · intro μ c k msg kac ks h1 h2 h3
    simp [SigCtx.sign_partial, h1, h2, h3]
  · intro μ c k msg kac ks np h1 h2 h3 h4
    simp [SigCtx.sign_partial, h1, h2, h3, h4]
  · intro μ c k msg kac ks np sn h1 h2 h3 h4 h5
    simp [SigCtx.sign_partial, h1, h2, h3, h4, h5]
  · intro c h
    have hg : c.get_nonce_shares = none := by
      rcases h with h | h <;> cases hb : c.am_buyer <;>
        cases hp : c.peers_nonce_share <;> cases hm : c.my_nonce_share <;>
        simp_all [SigCtx.get_nonce_shares]
    simp [SigCtx.aggregate_nonce_shares, hg]
  · intro μ c k kac an h1 h2 h3
    rcases h3 with h | h | h
    · have hg : c.get_partial_signatures = none := by
        cases hb : c.am_buyer <;> cases hp : c.peers_partial_sig <;>
          simp_all [SigCtx.get_partial_signatures]
      simp [SigCtx.aggregate_partial_signatures, h1, h2, hg]
    · have hg : c.get_partial_signatures = none := by
        cases hb : c.am_buyer <;> cases hm : c.my_partial_sig <;>
          simp_all [SigCtx.get_partial_signatures]
      simp [SigCtx.aggregate_partial_signatures, h1, h2, hg]
    · cases hg : c.get_partial_signatures <;>
        simp [SigCtx.aggregate_partial_signatures, h1, h2, hg, h]

/-- Key context with an aggregation context but no own key share. -/
def kctxNoShare : KeyCtx := { key_agg_ctx := some (base_point_mul 1, base_point_mul 1) }

/-- Signing context whose secret nonce has already been consumed. -/
def sctxUsed : SigCtx := { my_nonce_share := some { pub_nonce := (1, 2), sec_nonce := none } }

/-- Signing context with a fresh nonce pair but no aggregated nonce. -/
def sctxNoAgg : SigCtx :=
  { my_nonce_share := some { pub_nonce := (3, 4), sec_nonce := some (3, 4) } }

/-- Signing context with an aggregated nonce but no partial signatures. -/
def sctxNoSigs : SigCtx := { aggregated_nonce := some (5, 6) }

/-- Witness for C5: each missing-prerequisite error evaluated at a concrete
context. -/
theorem missing_prerequisite_error_codes_witness :
    ( SigCtx.sign_partial musig0 sctx0 ({} : KeyCtx) "m").2 = .error .MissingAggPubKey
    ∧ ( SigCtx.sign_partial musig0 sctx0 kctxNoShare "m").2 = .error .MissingKeyShare
    ∧ ( SigCtx.sign_partial musig0 ({} : SigCtx) kctx0 "m").2 = .error .MissingNonceShare
    ∧ ( SigCtx.sign_partial musig0 sctxUsed kctx0 "m").2 = .error .NonceReuse
    ∧ ( SigCtx.sign_partial musig0 sctxNoAgg kctx0 "m").2 = .error .MissingAggNonce
    ∧ ( SigCtx.aggregate_nonce_shares ({} : SigCtx)).2 = .error .MissingKeyShare
    ∧ ( SigCtx.aggregate_partial_signatures musig0 sctxNoSigs kctx0).2 =
        .error .MissingPartialSig :=
  ⟨missing_prerequisite_error_codes.1 musig0 sctx0 {} "m" rfl,
   missing_prerequisite_error_codes.2.1 musig0 sctx0 kctxNoShare "m"
     (base_point_mul 1, base_point_mul 1) rfl rfl,
   missing_prerequisite_error_codes.2.2.1 musig0 {} kctx0 "m"
     (base_point_mul 1, base_point_mul 1) KeyPair.new rfl rfl rfl,
   missing_prerequisite_error_codes.2.2.2.1 musig0 sctxUsed kctx0 "m"
     (base_point_mul 1, base_point_mul 1) KeyPair.new
     { pub_nonce := (1, 2), sec_nonce := none } rfl rfl rfl rfl,
   missing_prerequisite_error_codes.2.2.2.2.1 musig0 sctxNoAgg kctx0 "m"
     (base_point_mul 1, base_point_mul 1) KeyPair.new
     { pub_nonce := (3, 4), sec_nonce := some (3, 4) } (3, 4) rfl rfl rfl rfl rfl,
   missing_prerequisite_error_codes.2.2.2.2.2.1 {} (Or.inl rfl),
   missing_prerequisite_error_codes.2.2.2.2.2.2 musig0 sctxNoSigs kctx0
     (base_point_mul 1, base_point_mul 1) (5, 6) rfl rfl (Or.inl rfl)⟩

/-- Claim C7: two `KeyCtx` instances holding the same two public key
shares, each with the other's share as the peer share and with opposite
`am_buyer` flags, produce identical (and present) aggregated public keys
when both `aggregate_key_shares` calls succeed: the role-dependent
ordering rule makes both sides assemble the same ordered pair. -/
theorem key_aggregation_symmetry :
    ∀ (μ : Musig) (kB kS : KeyCtx) (pairB pairS : KeyPair) (kB2 kS2 : KeyCtx),
      kB.am_buyer = true → kS.am_buyer = false →
      kB.my_key_share = some pairB → kS.my_key_share = some pairS →
      kB.peers_key_share = some pairS.pub_key → kS.peers_key_share = some pairB.pub_key →
      KeyCtx.aggregate_key_shares μ kB = (kB2, .ok ()) →
      KeyCtx.aggregate_key_shares μ kS = (kS2, .ok ()) →
      kB2.aggregated_pub_key = kS2.aggregated_pub_key
      ∧ ∃ pk : Point, kB2.aggregated_pub_key = some pk := by
  intro μ kB kS pairB pairS kB2 kS2 hbB hbS h1 h2 h3 h4 hB hS
  have hgB : kB.get_key_shares = some (pairB.pub_key, pairS.pub_key) := by
    simp [KeyCtx.get_key_shares, hbB, h1, h3]
  have hgS : kS.get_key_shares = some (pairB.pub_key, pairS.pub_key) := by
    simp [KeyCtx.get_key_shares, hbS, h2, h4]
  unfold KeyCtx.aggregate_key_shares at hB hS
  rw [hgB] at hB
  rw [hgS] at hS
  cases hagg : μ.keyAggNew pairB.pub_key pairS.pub_key <;> simp only [hagg] at hB hS
  · simp at hB
  · case some agg =>
    simp only [Prod.mk.injEq] at hB hS
    obtain ⟨hkB2, -⟩ := hB
    obtain ⟨hkS2, -⟩ := hS
    subst hkB2
    subst hkS2
    exact ⟨rfl, ⟨μ.aggregated_pubkey agg, rfl⟩⟩

/-- Buyer-side key context holding both placeholder public shares. -/
def kctxBuyerW : KeyCtx :=
  { am_buyer := true, my_key_share := some KeyPair.new,
    peers_key_share := some KeyPair.new.pub_key }

/-- Seller-side key context holding both placeholder public shares. -/
def kctxSellerW : KeyCtx :=
  { am_buyer := false, my_key_share := some KeyPair.new,
    peers_key_share := some KeyPair.new.pub_key }

/-- Witness for C7 at concrete cross-matching contexts. -/
theorem key_aggregation_symmetry_witness :
    ( KeyCtx.aggregate_key_shares musig0 kctxBuyerW).1.aggregated_pub_key =
      ( KeyCtx.aggregate_key_shares musig0 kctxSellerW).1.aggregated_pub_key
    ∧ ∃ pk : Point,
      ( KeyCtx.aggregate_key_shares musig0 kctxBuyerW).1.aggregated_pub_key = some pk :=
  key_aggregation_symmetry musig0 kctxBuyerW kctxSellerW KeyPair.new KeyPair.new
    ( KeyCtx.aggregate_key_shares musig0 kctxBuyerW).1
    ( KeyCtx.aggregate_key_shares musig0 kctxSellerW).1
    rfl rfl rfl rfl rfl rfl rfl rfl

/-- Claim C4 counterexample: a `sign_partial` call that fails with
`MissingAggNonce` (fresh nonce pair present, aggregated nonce absent) is
not a state no-op: the secret nonce has already been taken out of the
nonce pair, so the context after the call differs from the context before
it. -/
theorem failing_sign_partial_mutates_state :
    ( SigCtx.sign_partial musig0 sctxNoAgg kctx0 "m").2 =
      Except.error ProtocolErrorKind.MissingAggNonce
    ∧ ( SigCtx.sign_partial musig0 sctxNoAgg kctx0 "m").1 ≠ sctxNoAgg :=
  ⟨rfl, by decide⟩

/-- Claim C4 (amended): failing `aggregate_key_shares`,
`aggregate_nonce_shares` and `aggregate_partial_signatures` calls leave
the context exactly as it was; a failing `sign_partial` also does, except
that when it fails with `MissingAggNonce` or an underlying signing error
the secret nonce has already been consumed (taken before those checks), so
the context is the pre-call context with the secret-nonce slot emptied. -/
theorem failure_state_effects :
    (∀ (μ : Musig) (k k2 : KeyCtx) (e : ProtocolErrorKind),
      KeyCtx.aggregate_key_shares μ k = (k2, .error e) → k2 = k)
    ∧ (∀ (c c2 : SigCtx) (e : ProtocolErrorKind),
      SigCtx.aggregate_nonce_shares c = (c2, .error e) → c2 = c)
    ∧ (∀ (μ : Musig) (c : SigCtx) (k : KeyCtx) (c2 : SigCtx) (e : ProtocolErrorKind),
      SigCtx.aggregate_partial_signatures μ c k = (c2, .error e) → c2 = c)
    ∧ (∀ (μ : Musig) (c : SigCtx) (k : KeyCtx) (msg : String) (c2 : SigCtx)
      (e : ProtocolErrorKind), SigCtx.sign_partial μ c k msg = (c2, .error e) →
      c2 = c ∨ ((e = .MissingAggNonce ∨ e = .Signing)
        ∧ ∃ np : NoncePair, c.my_nonce_share = some np
          ∧ c2 = { c with my_nonce_share := some { np with sec_nonce := none } })) := by
  refine ⟨?_, ?_, ?_, ?_⟩
  · intro μ k k2 e h
    unfold KeyCtx.aggregate_key_shares at h
    cases hg : k.get_key_shares <;> simp only [hg] at h
    · simp only [Prod.mk.injEq] at h
      exact h.1.symm
    · case some shares =>
      cases hagg : μ.keyAggNew shares.1 shares.2 <;> simp only [hagg] at h
      · simp only [Prod.mk.injEq] at h
        exact h.1.symm
      · simp at h
  · intro c c2 e h
    unfold SigCtx.aggregate_nonce_shares at h
    cases hg : c.get_nonce_shares <;> simp only [hg] at h
    · simp only [Prod.mk.injEq] at h
      exact h.1.symm
    · simp at h
  · intro μ c k c2 e h
    unfold SigCtx.aggregate_partial_signatures at h
    cases hkac : k.key_agg_ctx <;> simp only [hkac] at h
    · simp only [Prod.mk.injEq] at h
      exact h.1.symm
    · case some kac =>
      cases han : c.aggregated_nonce <;> simp only [han] at h
      · simp only [Prod.mk.injEq] at h
        exact h.1.symm
      · case some an =>
        cases hg : c.get_partial_signatures <;> simp only [hg] at h
        · simp only [Prod.mk.injEq] at h
          exact h.1.symm
        · case some sigs =>
          cases hm : c.message <;> simp only [hm] at h
          · simp only [Prod.mk.injEq] at h
            exact h.1.symm
          · case some message =>
            cases hs : μ.aggregateSigsFn kac an sigs.1 sigs.2 message <;>
              simp only [hs] at h
            · simp only [Prod.mk.injEq] at h
              exact h.1.symm
            · simp at h
  · intro μ c k msg c2 e h
    unfold SigCtx.sign_partial at h
    cases hkac : k.key_agg_ctx <;> rw [hkac] at h
    · left
      simp only [Prod.mk.injEq] at h
      exact h.1.symm
    · case some kac =>
      cases hks : k.my_key_share <;> rw [hks] at h
      · left
        simp only [Prod.mk.injEq] at h
        exact h.1.symm
      · case some ks =>
        cases hnp : c.my_nonce_share <;> rw [hnp] at h
        · left
          simp only [Prod.mk.injEq] at h
          exact h.1.symm
        · case some np =>
          cases hsn : np.sec_nonce <;> simp only [hsn] at h
          · left
            simp only [Prod.mk.injEq] at h
            obtain ⟨hc2, -⟩ := h
            rw [← hc2]
            obtain ⟨pn, sec⟩ := np
            simp only at hsn
            subst hsn
            cases c
            simp_all
          · case some sn =>
            cases han : c.aggregated_nonce <;> simp only [han] at h
            · right
              simp only [Prod.mk.injEq, Except.error.injEq] at h
              obtain ⟨hc2, he⟩ := h
              exact ⟨Or.inl he.symm, np, rfl, hc2.symm⟩
            · case some an =>
              cases hsig : μ.signPartialFn kac ks.prv_key sn an msg <;> simp only [hsig] at h
              · right
                simp only [Prod.mk.injEq, Except.error.injEq] at h
                obtain ⟨hc2, he⟩ := h
                exact ⟨Or.inr he.symm, np, rfl, hc2.symm⟩
              · simp at h

/-- Witness for C4 (amended): each conjunct evaluated at a concrete
failing call. -/
theorem failure_state_effects_witness :
    ( KeyCtx.aggregate_key_shares musig0 ({} : KeyCtx)).1 = ({} : KeyCtx)
    ∧ ( SigCtx.aggregate_nonce_shares ({} : SigCtx)).1 = ({} : SigCtx)
    ∧ ( SigCtx.aggregate_partial_signatures musig0 sctxNoSigs ({} : KeyCtx)).1 = sctxNoSigs
    ∧ (( SigCtx.sign_partial musig0 sctxNoAgg kctx0 "m").1 = sctxNoAgg
        ∨ ((ProtocolErrorKind.MissingAggNonce = ProtocolErrorKind.MissingAggNonce
            ∨ ProtocolErrorKind.MissingAggNonce = ProtocolErrorKind.Signing)
          ∧ ∃ np : NoncePair, sctxNoAgg.my_nonce_share = some np
            ∧ ( SigCtx.sign_partial musig0 sctxNoAgg kctx0 "m").1 =
                { sctxNoAgg with my_nonce_share := some { np with sec_nonce := none } })) :=
  ⟨failure_state_effects.1 musig0 {} ( KeyCtx.aggregate_key_shares musig0 {}).1
      ProtocolErrorKind.MissingKeyShare rfl,
   failure_state_effects.2.1 {} ( SigCtx.aggregate_nonce_shares {}).1
      ProtocolErrorKind.MissingKeyShare rfl,
   failure_state_effects.2.2.1 musig0 sctxNoSigs {}
      ( SigCtx.aggregate_partial_signatures musig0 sctxNoSigs {}).1
      ProtocolErrorKind.MissingAggPubKey rfl,
   failure_state_effects.2.2.2 musig0 sctxNoAgg kctx0 "m"
      ( SigCtx.sign_partial musig0 sctxNoAgg kctx0 "m").1
      ProtocolErrorKind.MissingAggNonce rfl⟩

/-- Claim C2 counterexample: a seller-role and a buyer-role model run
against each other through R1 (`set_peer_key_shares` then a succeeding
`aggregate_key_shares` on both sides) still have no swap-tx-input adaptor
at all: it is `none` on both sides, not an identical non-identity value. -/
theorem swap_adaptor_unset_after_R1 :
    (TradeModel.aggregate_key_shares musig0
      (TradeModel.set_peer_key_shares sellerR0 (base_point_mul 1) (base_point_mul 1))).2 =
        Except.ok ()
    ∧ (TradeModel.aggregate_key_shares musig0
      (TradeModel.set_peer_key_shares buyerR0 (base_point_mul 1) (base_point_mul 1))).2 =
        Except.ok ()
    ∧ sellerR1.swap_tx_input_adaptor = none
    ∧ buyerR1.swap_tx_input_adaptor = none :=
  ⟨rfl, rfl, rfl, rfl⟩

/-- Claim C2 (amended): R1 never sets the swap-tx-input adaptor (it stays
unset through `set_peer_key_shares` and `aggregate_key_shares`); the
adaptor is first set by the seller during R4 `sign_partial`, to its
seller-output private key share minus its swap partial signature (a
scalar, not a point), and the buyer only obtains it in R5 when the
seller's exchanged signatures carry a `SellersAdaptor` value, which is
stored verbatim — after which the two sides hold the identical scalar. -/
theorem swap_adaptor_set_at_R4_and_R5 :
    (∀ (μ : Musig) (m : TradeModel) (bpk spk : Point) (m2 : TradeModel) (r : Result Unit),
      TradeModel.aggregate_key_shares μ (TradeModel.set_peer_key_shares m bpk spk) = (m2, r) →
      m.swap_tx_input_adaptor = none → m2.swap_tx_input_adaptor = none)
    ∧ (∀ (μ : Musig) (m m2 : TradeModel), m.am_buyer = false →
      TradeModel.sign_partial μ m = (m2, Except.ok ()) →
      ∃ (ks : KeyPair) (sig : PartialSignature),
        m2.seller_output_key_ctx.my_key_share = some ks
        ∧ m2.swap_tx_input_sig_ctx.my_partial_sig = some sig
        ∧ m2.swap_tx_input_adaptor = some (ks.prv_key - sig))
    ∧ (∀ (m : TradeModel) (sigs : ExchangedSigs) (a : Adaptor), m.am_buyer = true →
      sigs.swap_tx_input_scalar = some (SwapTxInputScalar.SellersAdaptor a) →
      (TradeModel.set_peer_partial_signatures_on_my_txs m sigs).swap_tx_input_adaptor =
        some a) := by
  refine ⟨?_, ?_, ?_⟩
  · intro μ m bpk spk m2 r h hm
    unfold TradeModel.aggregate_key_shares at h
    cases hc1 : KeyCtx.aggregate_key_shares μ
        (TradeModel.set_peer_key_shares m bpk spk).buyer_output_key_ctx with
    | mk k1 r1 =>
    cases r1 with
    | error e =>
      simp only [hc1, Prod.mk.injEq] at h
      obtain ⟨h2, -⟩ := h
      subst h2
      simp [TradeModel.set_peer_key_shares, hm]
    | ok u =>
    simp only [hc1] at h
    cases hc2 : KeyCtx.aggregate_key_shares μ
        (TradeModel.set_peer_key_shares m bpk spk).seller_output_key_ctx with
    | mk k2 r2 =>
    cases r2 <;> simp only [hc2, Prod.mk.injEq] at h <;> obtain ⟨h2, -⟩ := h <;> subst h2 <;>
      simp [TradeModel.set_peer_key_shares, hm]
  · intro μ m m2 hb h
    unfold TradeModel.sign_partial at h
    cases hc1 : SigCtx.sign_partial μ m.buyers_warning_tx_buyer_input_sig_ctx
        m.buyer_output_key_ctx "buyer\x27s warning tx buyer input" with
    | mk c1 r1 =>
    cases r1 with
    | error e => simp only [hc1] at h; simp at h
    | ok s1 =>
    simp only [hc1] at h
    cases hc2 : SigCtx.sign_partial μ m.sellers_warning_tx_buyer_input_sig_ctx
        m.buyer_output_key_ctx "seller\x27s warning tx buyer input" with
    | mk c2 r2 =>
    cases r2 with
    | error e => simp only [hc2] at h; simp at h
    | ok s2 =>
    simp only [hc2] at h
    cases hc3 : SigCtx.sign_partial μ m.buyers_redirect_tx_input_sig_ctx
        m.buyer_output_key_ctx "buyer\x27s redirect tx input" with
    | mk c3 r3 =>
    cases r3 with
    | error e => simp only [hc3] at h; simp at h
    | ok s3 =>
    simp only [hc3] at h
    cases hc4 : SigCtx.sign_partial μ m.swap_tx_input_sig_ctx
        m.seller_output_key_ctx "swap tx input" with
    | mk c4 r4 =>
    cases r4 with
    | error e => simp only [hc4] at h; simp at h
    | ok s4 =>
    simp only [hc4] at h
    cases hc5 : SigCtx.sign_partial μ m.buyers_warning_tx_seller_input_sig_ctx
        m.seller_output_key_ctx "buyer\x27s warning tx seller input" with
    | mk c5 r5 =>
    cases r5 with
    | error e => simp only [hc5] at h; simp at h
    | ok s5 =>
    simp only [hc5] at h
    cases hc6 : SigCtx.sign_partial μ m.sellers_warning_tx_seller_input_sig_ctx
        m.seller_output_key_ctx "seller\x27s warning tx seller input" with
    | mk c6 r6 =>
    cases r6 with
    | error e => simp only [hc6] at h; simp at h
    | ok s6 =>
    simp only [hc6] at h
    cases hc7 : SigCtx.sign_partial μ m.sellers_redirect_tx_input_sig_ctx
        m.seller_output_key_ctx "seller\x27s redirect tx input" with
    | mk c7 r7 =>
    cases r7 with
    | error e => simp only [hc7] at h; simp at h
    | ok s7 =>
    simp only [hc7] at h
    simp only [TradeModel.am_buyer] at hb
    simp only [TradeModel.am_buyer, hb, Bool.false_eq_true, if_false] at h
    cases hks : m.seller_output_key_ctx.my_key_share with
    | none => simp only [hks] at h; simp at h
    | some ks =>
    simp only [hks] at h
    cases hsig : c4.my_partial_sig with
    | none => simp only [hsig] at h; simp at h
    | some sig =>
    simp only [hsig] at h
    simp only [Prod.mk.injEq] at h
    obtain ⟨h2, -⟩ := h
    subst h2
    refine ⟨ks, sig, ?_, ?_, ?_⟩ <;> simp [hks, hsig]
  · intro m sigs a hb hs
    simp [TradeModel.set_peer_partial_signatures_on_my_txs, hb, hs]

/-- The seller's exchanged signatures after R4, as handed to the buyer. -/
def esSeller : ExchangedSigs :=
  (TradeModel.get_my_partial_signatures_on_peer_txs sellerR4).getD dummySigs

/-- Witness for C2 (amended): the concrete seller-side pipeline through R4
and the buyer receiving the seller's adaptor in R5. -/
theorem swap_adaptor_set_at_R4_and_R5_witness :
    sellerR1.swap_tx_input_adaptor = none
    ∧ (∃ (ks : KeyPair) (sig : PartialSignature),
        sellerR4.seller_output_key_ctx.my_key_share = some ks
        ∧ sellerR4.swap_tx_input_sig_ctx.my_partial_sig = some sig
        ∧ sellerR4.swap_tx_input_adaptor = some (ks.prv_key - sig))
    ∧ (TradeModel.set_peer_partial_signatures_on_my_txs buyerR4 esSeller).swap_tx_input_adaptor
        = some ((1 : Scalar) - 4) :=
  ⟨swap_adaptor_set_at_R4_and_R5.1 musig0 sellerR0 (base_point_mul 1) (base_point_mul 1)
      sellerR1 (Except.ok ()) rfl rfl,
   swap_adaptor_set_at_R4_and_R5.2.1 musig0 sellerR3 sellerR4 rfl rfl,
   swap_adaptor_set_at_R4_and_R5.2.2 buyerR4 esSeller ((1 : Scalar) - 4) rfl rfl⟩

/-- Swap-tx-input signing context ready for final aggregation. -/
def swapReady : SigCtx :=
  { am_buyer := true, aggregated_nonce := some (5, 6), message := some "swap tx input",
    my_partial_sig := some 4, peers_partial_sig := some 7 }

/-- Buyer-role model in which the seller-output key context (the wiring
table's key context for the swap input) is aggregated but the buyer-output
one is not, and the swap-tx-input signing context is ready. -/
def mC8 : TradeModel :=
  { TradeModel.new "trade-8" Role.BuyerAsMaker with
    seller_output_key_ctx :=
      { am_buyer := true, my_key_share := some KeyPair.new,
        peers_key_share := some (base_point_mul 1),
        aggregated_pub_key := some 2,
        key_agg_ctx := some (base_point_mul 1, base_point_mul 1) },
    swap_tx_input_sig_ctx := swapReady }

/-- Claim C8: `aggregate_swap_tx_partial_signatures` does not always use
`seller_output_key_ctx`: for a buyer-role model it selects
`buyer_output_key_ctx`.  At `mC8` — a buyer whose seller-output key
context is aggregated (so aggregation under the wiring table's context
succeeds, with the concrete `musig0` result `(5, 11)`) while the
buyer-output context is not — the call fails with `MissingAggPubKey`,
showing it consulted the buyer-output context instead of the seller-output
one required by the wiring table. -/
theorem aggregate_swap_key_ctx_role_dependent :
    mC8.am_buyer = true
    ∧ mC8.seller_output_key_ctx.key_agg_ctx = some (base_point_mul 1, base_point_mul 1)
    ∧ ( SigCtx.aggregate_partial_signatures musig0 mC8.swap_tx_input_sig_ctx
        mC8.seller_output_key_ctx).2 = Except.ok ((5 : Point), (11 : Scalar))
    ∧ mC8.buyer_output_key_ctx.key_agg_ctx = none
    ∧ (TradeModel.aggregate_swap_tx_partial_signatures musig0 mC8).2 =
        Except.error ProtocolErrorKind.MissingAggPubKey :=
  ⟨rfl, rfl, rfl, rfl, rfl⟩

end GrpcDemo
